import Mathlib

/-!
Shallow embedding of the resilient batch-annotation engine of `paper_pipeline.py`
(step 3: AI relevance scoring), together with its checkpoint store and the
request builder, and proofs of the specified properties.
-/

namespace GetPappers

/-- One scoring result, as stored in `results_map` / the checkpoint:
`{"score": ..., "reason": ...}`. -/
structure ScoreResult where
  score : Int
  reason : String
deriving DecidableEq, Repr

/-- One input row of the dataframe handed to `run_ai_scoring`: a stable
`RowId`, a title and the `Abstract_Link` cell (`none` models a NaN cell). -/
structure Row where
  rowId : Int
  title : String
  abstractLink : Option String
deriving DecidableEq, Repr

/-- The in-memory `results_map` / checkpoint map: association list from
`RowId` to `ScoreResult` (Python `dict`, observed through key lookup). -/
abbrev CkptMap := List (Int × ScoreResult)

/-- Key lookup in a map (first binding wins, as in an insertion-ordered dict
that never holds duplicate keys). -/
def lookupId (m : CkptMap) (k : Int) : Option ScoreResult :=
  List.lookup k m

/-- Python `d.update(u)`: every binding of `u` overwrites the binding of `d`
with the same key; bindings of `d` with keys not in `u` survive. -/
def dictUpdate (d u : CkptMap) : CkptMap :=
  d.filter (fun p => (List.lookup p.1 u).isNone) ++ u

/-- One element of the parsed AI response array.  The code reads it with
`.get("score", 0)` and `.get("reason", "无理由")`; it may also carry an
`id` field, which the code never reads. -/
structure RespItem where
  id : Option Int := none
  score : Option Int := none
  reason : Option String := none
deriving DecidableEq, Repr

/-- The value produced by `json.loads` on the AI reply: either a JSON array
of response objects, or some other JSON value (whose Python truthiness is
recorded, since the code tests `if ai_results and isinstance(ai_results, list)`). -/
inductive PyJson where
  | arr (items : List RespItem)
  | other (truthy : Bool)
deriving DecidableEq, Repr

/-- The default entry recorded when the response is missing, not a list, or
too short: `{"score": 0, "reason": "AI返回不足或失败"}`. -/
def defaultResult : ScoreResult := ⟨0, "AI返回不足或失败"⟩

/-- The result recorded for the item at position `j` of a batch, from the
parsed response `resp`:
`if ai_results and isinstance(ai_results, list) and j < len(ai_results)`
then `{"score": ai_results[j].get("score", 0), "reason": ai_results[j].get("reason", "无理由")}`
else the default.  (For an array, `j < len` already implies the array is
truthy, i.e. non-empty.) -/
def pickResult (resp : Option PyJson) (j : Nat) : ScoreResult :=
  match resp with
  | some (.arr l) =>
    match l.get? j with
    | some e => ⟨e.score.getD 0, e.reason.getD "无理由"⟩
    | none => defaultResult
  | _ => defaultResult

/-- The loop `for j, row_id in enumerate(indices): results_map[row_id] = ...`
of `run_ai_scoring`, as the list of bindings it writes, starting at
position `j`. -/
def batchAssign (resp : Option PyJson) (j : Nat) : List Int → CkptMap
  | [] => []
  | rid :: rest => (rid, pickResult resp j) :: batchAssign resp (j + 1) rest

/-- `chunks = [pending_df.iloc[i : i + batch_size] for i in range(0, len(pending_df), batch_size)]`:
slice the pending sequence into consecutive groups of `bs` items, the last
possibly smaller.  For `bs > 0`, `range(0, n, bs)` is `[k * bs for k in
range(ceil(n / bs))]` with `ceil(n / bs) = (n + bs - 1) / bs`.  (`bs = 0`
would make Python `range` raise; it is excluded by the hypotheses below.) -/
def chunks (bs : Nat) (l : List α) : List (List α) :=
  (List.range ((l.length + bs - 1) / bs)).map (fun k => (l.drop (k * bs)).take bs)

/-- `pending_df = df[df["RowId"].map(lambda x: x not in results_map)]`. -/
def pendingRows (rows : List Row) (m : CkptMap) : List Row :=
  rows.filter (fun r => (lookupId m r.rowId).isNone)

/-- One row of the final table, before writing: the input row with its
`AI_Score` and `AI_Reason` columns. -/
structure OutRow where
  row : Row
  aiScore : Int
  aiReason : String
deriving DecidableEq, Repr

/-- `df["AI_Score"] = df["RowId"].map(lambda x: results_map.get(x, {}).get("score", 0))`
and likewise `AI_Reason` with default `"处理遗漏"`. -/
def finalizeRows (rows : List Row) (m : CkptMap) : List OutRow :=
  rows.map (fun r =>
    ⟨r, ((lookupId m r.rowId).map (·.score)).getD 0,
        ((lookupId m r.rowId).map (·.reason)).getD "处理遗漏"⟩)

/-- `df = df.sort_values(by="AI_Score", ascending=False)`: reorder by
descending score.  (The embedding fixes a merge sort; the tie order of the
library sort is a separate question, see the stability discussion.) -/
def sortByScoreDesc (l : List OutRow) : List OutRow :=
  l.mergeSort (fun a b => decide (b.aiScore ≤ a.aiScore))

/-- The per-batch maps written by the result-collection loop, in submission
order: batch `i` contributes `batchAssign (oracle i) 0 ids_i`, where
`oracle i` is the value `_call_ai` returned for batch `i` (`none` for a
failed batch or a worker exception). -/
def batchMaps (cks : List (List Row)) (oracle : Nat → Option PyJson) : List CkptMap :=
  cks.enum.map (fun p => batchAssign (oracle p.1) 0 (p.2.map (·.rowId)))

/-- What one run of the engine produces: the row-id groups dispatched to the
remote service (in batch order), the final table, and the final results map. -/
structure RunResult where
  dispatched : List (List Int)
  output : List OutRow
  finalMap : CkptMap
deriving Repr

/-- `run_ai_scoring(df, abstract_dir, ai_cfg, output_path)`: merge the prior
output and the checkpoint (checkpoint last, so it wins), compute the pending
rows; if none are pending, write the final sorted table at once with zero
remote calls; otherwise partition the pending rows into batches of
`ai_cfg.batch_size`, score each batch (its parsed response abstracted by
`oracle`), record results positionally with defaults, and write the final
sorted table. -/
def run_ai_scoring (rows : List Row) (prior ckpt : CkptMap) (bs : Nat)
    (oracle : Nat → Option PyJson) : RunResult :=
  if (pendingRows rows (dictUpdate prior ckpt)).isEmpty then
    ⟨[], sortByScoreDesc (finalizeRows rows (dictUpdate prior ckpt)),
      dictUpdate prior ckpt⟩
  else
    ⟨(chunks bs (pendingRows rows (dictUpdate prior ckpt))).map
        (fun c => c.map (·.rowId)),
      sortByScoreDesc (finalizeRows rows
        ((batchMaps (chunks bs (pendingRows rows (dictUpdate prior ckpt))) oracle).foldl
          dictUpdate (dictUpdate prior ckpt))),
      (batchMaps (chunks bs (pendingRows rows (dictUpdate prior ckpt))) oracle).foldl
        dictUpdate (dictUpdate prior ckpt)⟩

/-- The outcome of the body of one attempt of `_call_ai`: either the parsed
JSON value, or the message text of the exception raised (by the HTTP call,
by `json.loads`, ...). -/
inductive CallOutcome where
  | ok (v : PyJson)
  | error (msg : String)

/-- `str(exc).lower()`, at character level. -/
def lowerChars (s : String) : List Char :=
  s.data.map Char.toLower

/-- The rate-limit test of `_call_ai`:
`"429" in str(exc) or "rate limit" in str(exc).lower()`. -/
def isRateLimitedMsg (msg : String) : Bool :=
  decide ("429".data <:+: msg.data) || decide ("rate limit".data <:+: lowerChars msg)

/-- The retry loop of `_call_ai`, from attempt number `attempt` (0-based)
with `remaining = max_retries - attempt` attempts still available; the
Python guard `attempt < max_retries - 1` is exactly `0 < remaining - 1`,
i.e. `1 ≤ remaining - 1` for `remaining = r + 1`.  Returns the parsed
result (or `none`), the list of sleeps performed
(`time.sleep(5 * (attempt + 1))` before each retry), and the number of
attempts made. -/
def callLoop (f : Nat → CallOutcome) (attempt : Nat) :
    Nat → Option PyJson × List Nat × Nat
  | 0 => (none, [], 0)
  | r + 1 =>
    match f attempt with
    | .ok v => (some v, [], 1)
    | .error msg =>
      if isRateLimitedMsg msg && decide (0 < r) then
        let q := callLoop f (attempt + 1) r
        (q.1, 5 * (attempt + 1) :: q.2.1, q.2.2 + 1)
      else (none, [], 1)

/-- `_call_ai(client, ai_cfg, prompt)` with its hard-coded `max_retries = 3`:
attempt outcomes are abstracted by `f`.  Returns `(parsed result or none,
sleeps, attempts made)`; it never raises. -/
def _call_ai (f : Nat → CallOutcome) : Option PyJson × List Nat × Nat :=
  callLoop f 0 3

/-- The state of the abstract file a link points at: absent, unreadable or
non-JSON (`json.load` or the `dict` access raises), or parsed, with the
value of its `"abstract"` key (`none` when the key is absent). -/
inductive AbstractFile where
  | missing
  | corrupt
  | parsed (abstract : Option String)
deriving DecidableEq, Repr

/-- `_read_abstract(abstract_dir, link)`: the body text placed in the prompt
for one item.  `fs` maps a link to the state of the file it names. -/
def _read_abstract (fs : String → AbstractFile) (link : Option String) : String :=
  match link with
  | none => "无摘要数据。"
  | some l =>
    if l = "" ∨ l = "Not_Found" then "无摘要数据。"
    else
      match fs l with
      | .missing => "找不到摘要文件。"
      | .corrupt => "摘要文件损坏。"
      | .parsed none => "摘要内容为空。"
      | .parsed (some s) => s

/-- Python `str(k)` on an integer key, modelled as its sign and the decimal
digit list of its magnitude (little-endian, as `Nat.digits` produces). -/
def pyStrKey (k : Int) : Bool × List Nat :=
  (decide (k < 0), Nat.digits 10 k.natAbs)

/-- Python `int(s)` on such a serialized key. -/
def pyIntKey (p : Bool × List Nat) : Int :=
  if p.1 then -(Nat.ofDigits 10 p.2 : Nat) else (Nat.ofDigits 10 p.2 : Nat)

/-- `_save_checkpoint`, key level: `json.dump({str(k): v for k, v in data.items()}, ...)`
serializes every key to its decimal string. -/
def _save_checkpoint_keys (m : CkptMap) : List ((Bool × List Nat) × ScoreResult) :=
  m.map (fun p => (pyStrKey p.1, p.2))

/-- `_load_checkpoint`, key level: `{int(k): v for k, v in data.items()}`
converts every key back to an integer. -/
def _load_checkpoint_keys (j : List ((Bool × List Nat) × ScoreResult)) : CkptMap :=
  j.map (fun p => (pyIntKey p.1, p.2))

/-- A simplified rendering of the `json.dump` text of a checkpoint map (the
atomicity analysis below depends only on the write pattern, not on the exact
text; only non-emptiness of the rendering matters). -/
def serializeCkpt (m : CkptMap) : String :=
  "\x7b" ++ String.intercalate ", "
    (m.map (fun p => toString p.1 ++ ": " ++ toString p.2.score ++ " " ++ p.2.reason))
  ++ "\x7d"

/-- One operation `_save_checkpoint` performs on the target file. -/
inductive FsOp where
  | truncate
  | writeChar (c : Char)
deriving DecidableEq, Repr

/-- The operation sequence of `_save_checkpoint(path, data)` on the target
path: `open(path, "w")` truncates the file in place, then `json.dump`
writes the serialized text `s` incrementally (modelled character by
character).  There is no temporary file and no rename. -/
def saveCheckpointOps (s : String) : List FsOp :=
  FsOp.truncate :: s.data.map FsOp.writeChar

/-- The file content after applying a sequence of operations to content `old`. -/
def fileAfter (old : String) (ops : List FsOp) : String :=
  ops.foldl (fun c op => match op with
    | FsOp.truncate => ""
    | FsOp.writeChar ch => c.push ch) old

/-- The file content if the process crashes after the first `n` operations
of a save of serialized text `s` over previous content `old`. -/
def crashResult (old s : String) (n : Nat) : String :=
  fileAfter old ((saveCheckpointOps s).take n)

/-- The atomicity contract claimed of the save: at every crash point the
file holds either the previous content or the complete new content. -/
def atomicSave (old s : String) : Prop :=
  ∀ n : Nat, crashResult old s n = old ∨ crashResult old s n = s

/-- Concrete input set for evaluating the theorems below. -/
def exRows : List Row := [⟨0, "a", none⟩, ⟨1, "b", none⟩]

/-- A prior finalized output holding results for both example rows. -/
def exPrior : CkptMap := [(0, ⟨2, "p"⟩), (1, ⟨1, "q"⟩)]

/-- A checkpoint holding a more recent result for row 1. -/
def exCkpt : CkptMap := [(1, ⟨5, "c"⟩)]

/-- An oracle under which every remote call fails. -/
def exOracleNone : Nat → Option PyJson := fun _ => none

/-- A three-row input set with nothing resolved yet. -/
def exRows3 : List Row := [⟨0, "a", none⟩, ⟨1, "b", none⟩, ⟨2, "c", none⟩]

/-- An oracle under which batch 0 fails and batch 1 answers for one item. -/
def exOracle1 : Nat → Option PyJson := fun n =>
  if n = 1 then some (PyJson.arr [⟨some 9, some 4, some "ok"⟩]) else none

/-- Attempt outcomes: rate-limited twice, then a successful parse. -/
def exAttempts : Nat → CallOutcome := fun n =>
  if n = 0 then CallOutcome.error "HTTP 429 Too Many Requests"
  else if n = 1 then CallOutcome.error "Rate Limit exceeded"
  else CallOutcome.ok (PyJson.arr [⟨none, some 3, some "fine"⟩])

/-!  ## Helper lemmas  -/

theorem chunks_nil (bs : Nat) : chunks bs ([] : List α) = [] := by
  unfold chunks
  have h : ((List.length ([] : List α)) + bs - 1) / bs = 0 := by
    rcases Nat.eq_zero_or_pos bs with hb | hb
    · subst hb; simp
    · simp only [List.length_nil, Nat.zero_add]
      exact Nat.div_eq_of_lt (by omega)
  rw [h]
  simp

theorem chunks_cons (bs : Nat) (hbs : 0 < bs) (l : List α) (hne : l ≠ []) :
    chunks bs l = l.take bs :: chunks bs (l.drop bs) := by
  have hlen : 0 < l.length := List.length_pos.mpr hne
  have hn : (l.length + bs - 1) / bs = ((l.drop bs).length + bs - 1) / bs + 1 := by
    rw [List.length_drop]
    rcases le_or_lt l.length bs with h | h
    · have e0 : l.length - bs + bs - 1 = bs - 1 := by omega
      have e1 : l.length + bs - 1 = (l.length - 1) + bs := by omega
      rw [e0, e1, Nat.add_div_right _ hbs,
        Nat.div_eq_of_lt (show l.length - 1 < bs by omega),
        Nat.div_eq_of_lt (show bs - 1 < bs by omega)]
    · have e1 : l.length + bs - 1 = (l.length - bs + bs - 1) + bs := by omega
      rw [e1, Nat.add_div_right _ hbs]
  unfold chunks
  rw [hn, List.range_succ_eq_map, List.map_cons]
  congr 1
  · simp
  · rw [List.map_map]
    apply List.map_congr_left
    intro k _
    simp only [Function.comp_apply, List.drop_drop]
    congr 2
    rw [Nat.succ_mul]
    ring

theorem chunks_flatten (bs : Nat) (hbs : 0 < bs) (l : List α) :
    (chunks bs l).flatten = l := by
  rcases eq_or_ne l [] with rfl | hne
  · rw [chunks_nil]; rfl
  · rw [chunks_cons bs hbs l hne, List.flatten_cons,
      chunks_flatten bs hbs (l.drop bs), List.take_append_drop]
termination_by l.length
decreasing_by
  have : 0 < l.length := List.length_pos.mpr hne
  simp only [List.length_drop]
  omega

theorem chunks_mem (bs : Nat) (hbs : 0 < bs) (l : List α) :
    ∀ c ∈ chunks bs l, c.length ≤ bs ∧ c ≠ [] := by
  rcases eq_or_ne l [] with rfl | hne
  · rw [chunks_nil]; intro c hc; cases hc
  · rw [chunks_cons bs hbs l hne]
    intro c hc
    rcases List.mem_cons.mp hc with rfl | hc
    · constructor
      · rw [List.length_take]; omega
      · have : 0 < (l.take bs).length := by
          rw [List.length_take]
          have : 0 < l.length := List.length_pos.mpr hne
          omega
        exact List.length_pos.mp this
    · exact chunks_mem bs hbs (l.drop bs) c hc
termination_by l.length
decreasing_by
  have : 0 < l.length := List.length_pos.mpr hne
  simp only [List.length_drop]
  omega

theorem chunks_getD_len (bs : Nat) (hbs : 0 < bs) (l : List α) :
    ∀ i : Nat, i + 1 < (chunks bs l).length → ((chunks bs l).getD i []).length = bs := by
  rcases eq_or_ne l [] with rfl | hne
  · rw [chunks_nil]; intro i hi; simp at hi
  · rw [chunks_cons bs hbs l hne]
    intro i hi
    cases i with
    | zero =>
      rw [List.getD_cons_zero, List.length_take]
      have hrest : chunks bs (l.drop bs) ≠ [] := by
        intro hcon
        rw [List.length_cons, hcon] at hi
        simp at hi
      have hd : l.drop bs ≠ [] := by
        intro hcon
        rw [hcon, chunks_nil] at hrest
        exact hrest rfl
      have : 0 < (l.drop bs).length := List.length_pos.mpr hd
      rw [List.length_drop] at this
      omega
    | succ i =>
      rw [List.getD_cons_succ]
      apply chunks_getD_len bs hbs (l.drop bs)
      rw [List.length_cons] at hi
      omega
termination_by l.length
decreasing_by
  have : 0 < l.length := List.length_pos.mpr hne
  simp only [List.length_drop]
  omega

theorem lookup_filter_keep (d : CkptMap) (pred : Int × ScoreResult → Bool) (k : Int)
    (hk : ∀ v, pred (k, v) = true) :
    List.lookup k (d.filter pred) = List.lookup k d := by
  induction d with
  | nil => rfl
  | cons p t ih =>
    by_cases hp : pred p = true
    · rw [List.filter_cons_of_pos hp]
      by_cases hkp : (k == p.1) = true
      · simp [List.lookup, hkp]
      · simp only [List.lookup, hkp]
        exact ih
    · have hne : (k == p.1) = false := by
        rw [beq_eq_false_iff_ne]
        intro hcon
        apply hp
        have hval : pred (p.1, p.2) = true := by rw [← hcon]; exact hk p.2
        rwa [Prod.mk.eta] at hval
      rw [List.filter_cons_of_neg hp]
      simp only [List.lookup, hne]
      exact ih

theorem lookup_filter_drop (d : CkptMap) (pred : Int × ScoreResult → Bool) (k : Int)
    (hk : ∀ v, pred (k, v) = false) :
    List.lookup k (d.filter pred) = none := by
  induction d with
  | nil => rfl
  | cons p t ih =>
    by_cases hp : pred p = true
    · have hne : (k == p.1) = false := by
        rw [beq_eq_false_iff_ne]
        intro hcon
        have hval : pred (p.1, p.2) = false := by rw [← hcon]; exact hk p.2
        rw [Prod.mk.eta] at hval
        rw [hval] at hp
        exact absurd hp (by simp)
      rw [List.filter_cons_of_pos hp]
      simp only [List.lookup, hne]
      exact ih
    · rw [List.filter_cons_of_neg hp]
      exact ih

theorem lookup_dictUpdate (d u : CkptMap) (k : Int) :
    lookupId (dictUpdate d u) k = (lookupId u k).or (lookupId d k) := by
  unfold dictUpdate lookupId
  rw [List.lookup_append]
  cases hu : List.lookup k u with
  | some v =>
    rw [lookup_filter_drop d _ k (fun w => by simp [hu])]
    rfl
  | none =>
    rw [lookup_filter_keep d _ k (fun w => by simp [hu])]
    cases List.lookup k d <;> rfl

theorem lookup_foldl_none (ms : List CkptMap) (k : Int)
    (h : ∀ b ∈ ms, lookupId b k = none) :
    ∀ m0, lookupId (ms.foldl dictUpdate m0) k = lookupId m0 k := by
  induction ms with
  | nil => intro m0; rfl
  | cons b t ih =>
    intro m0
    rw [List.foldl_cons, ih (fun x hx => h x (List.mem_cons_of_mem _ hx)),
      lookup_dictUpdate, h b (List.mem_cons_self b t)]
    rfl

theorem lookup_foldl_last (ms : List CkptMap) (k : Int) (v : ScoreResult) :
    ∀ (i : Nat) (m0 : CkptMap), i < ms.length →
    lookupId (ms.getD i []) k = some v →
    (∀ j, i < j → j < ms.length → lookupId (ms.getD j []) k = none) →
    lookupId (ms.foldl dictUpdate m0) k = some v := by
  induction ms with
  | nil => intro i m0 hi; simp at hi
  | cons b t ih =>
    intro i m0 hi hv hafter
    cases i with
    | zero =>
      rw [List.foldl_cons]
      rw [lookup_foldl_none t k ?later]
      · rw [lookup_dictUpdate]
        rw [List.getD_cons_zero] at hv
        rw [hv]
        rfl
      case later =>
        intro b' hb'
        rcases List.mem_iff_getElem.mp hb' with ⟨jt, hjt, rfl⟩
        have := hafter (jt + 1) (by omega) (by simp; omega)
        rwa [List.getD_cons_succ, List.getD_eq_getElem t [] hjt] at this
    | succ i =>
      rw [List.foldl_cons]
      refine ih i (dictUpdate m0 b) (by simp at hi; omega) ?_ ?_
      · rwa [List.getD_cons_succ] at hv
      · intro j hj hjl
        have := hafter (j + 1) (by omega) (by simp; omega)
        rwa [List.getD_cons_succ] at this

theorem lookup_batchAssign_mem (resp : Option PyJson) (k : Int) :
    ∀ (ids : List Int) (j0 : Nat), k ∈ ids →
    ∃ jf, List.lookup k (batchAssign resp j0 ids) = some (pickResult resp jf) := by
  intro ids
  induction ids with
  | nil => intro j0 hk; cases hk
  | cons rid t ih =>
    intro j0 hk
    by_cases hkr : (k == rid) = true
    · exact ⟨j0, by simp [batchAssign, List.lookup, hkr]⟩
    · have hkt : k ∈ t := by
        rcases List.mem_cons.mp hk with rfl | h
        · simp at hkr
        · exact h
      rcases ih (j0 + 1) hkt with ⟨jf, hjf⟩
      exact ⟨jf, by simp only [batchAssign, List.lookup, hkr]; exact hjf⟩

theorem lookup_batchAssign_none (k : Int) :
    ∀ (ids : List Int) (j0 : Nat), k ∈ ids →
    List.lookup k (batchAssign none j0 ids) = some defaultResult := by
  intro ids
  induction ids with
  | nil => intro j0 hk; cases hk
  | cons rid t ih =>
    intro j0 hk
    by_cases hkr : (k == rid) = true
    · simp [batchAssign, List.lookup, hkr, pickResult]
    · have hkt : k ∈ t := by
        rcases List.mem_cons.mp hk with rfl | h
        · simp at hkr
        · exact h
      simp only [batchAssign, List.lookup, hkr]
      exact ih (j0 + 1) hkt

theorem lookup_batchAssign_not_mem (resp : Option PyJson) (k : Int) :
    ∀ (ids : List Int) (j0 : Nat), k ∉ ids →
    List.lookup k (batchAssign resp j0 ids) = none := by
  intro ids
  induction ids with
  | nil => intro j0 _; rfl
  | cons rid t ih =>
    intro j0 hk
    have hkr : (k == rid) = false := by
      rw [beq_eq_false_iff_ne]
      intro hcon
      rw [hcon] at hk
      exact hk (List.mem_cons_self rid t)
    simp only [batchAssign, List.lookup, hkr]
    exact ih (j0 + 1) (fun h => hk (List.mem_cons_of_mem _ h))

theorem batchMaps_nil (oracle : Nat → Option PyJson) : batchMaps [] oracle = [] := rfl

theorem batchMaps_length (cks : List (List Row)) (oracle : Nat → Option PyJson) :
    (batchMaps cks oracle).length = cks.length := by
  simp [batchMaps, List.enum_length]

theorem run_eq (rows : List Row) (prior ckpt : CkptMap) (bs : Nat)
    (oracle : Nat → Option PyJson) :
    run_ai_scoring rows prior ckpt bs oracle =
      ⟨(chunks bs (pendingRows rows (dictUpdate prior ckpt))).map
          (fun c => c.map (·.rowId)),
        sortByScoreDesc (finalizeRows rows
          ((batchMaps (chunks bs (pendingRows rows (dictUpdate prior ckpt))) oracle).foldl
            dictUpdate (dictUpdate prior ckpt))),
        (batchMaps (chunks bs (pendingRows rows (dictUpdate prior ckpt))) oracle).foldl
          dictUpdate (dictUpdate prior ckpt)⟩ := by
  unfold run_ai_scoring
  by_cases h : (pendingRows rows (dictUpdate prior ckpt)).isEmpty = true
  · have hnil : pendingRows rows (dictUpdate prior ckpt) = [] := List.isEmpty_iff.mp h
    rw [if_pos h, hnil, chunks_nil, batchMaps_nil]
    rfl
  · rw [if_neg h]

theorem batchMaps_getD (cks : List (List Row)) (oracle : Nat → Option PyJson)
    (i : Nat) (hi : i < cks.length) :
    (batchMaps cks oracle).getD i [] =
      batchAssign (oracle i) 0 ((cks.getD i []).map (·.rowId)) := by
  unfold batchMaps
  have hi2 : i < (cks.enum.map
      (fun p => batchAssign (oracle p.1) 0 (p.2.map (·.rowId)))).length := by
    simp [List.enum_length, hi]
  rw [List.getD_eq_getElem _ _ hi2, List.getElem_map, List.getElem_enum,
    List.getD_eq_getElem cks [] hi]

theorem getD_map_ids (cks : List (List Row)) (i : Nat) (hi : i < cks.length) :
    (cks.map (fun c => c.map (·.rowId))).getD i [] = (cks.getD i []).map (·.rowId) := by
  have hi2 : i < (cks.map (fun c => c.map (·.rowId))).length := by simp [hi]
  rw [List.getD_eq_getElem _ _ hi2, List.getElem_map, List.getD_eq_getElem cks [] hi]

theorem pending_ids_nodup (rows : List Row) (m : CkptMap)
    (hnd : (rows.map (·.rowId)).Nodup) :
    ((pendingRows rows m).map (·.rowId)).Nodup :=
  List.Nodup.sublist (List.Sublist.map _ (List.filter_sublist rows)) hnd

theorem chunks_ids_disjoint (bs : Nat) (hbs : 0 < bs) (pending : List Row)
    (hnd : (pending.map (·.rowId)).Nodup) :
    List.Pairwise List.Disjoint ((chunks bs pending).map (fun c => c.map (·.rowId))) := by
  have hfl : ((chunks bs pending).map (fun c => c.map (·.rowId))).flatten =
      pending.map (·.rowId) := by
    rw [← List.map_flatten, chunks_flatten bs hbs]
  have hflnd : ((chunks bs pending).map (fun c => c.map (·.rowId))).flatten.Nodup := by
    rw [hfl]; exact hnd
  exact (List.nodup_flatten.mp hflnd).2

theorem run_finalMap_lookup (rows : List Row) (prior ckpt : CkptMap) (bs : Nat)
    (oracle : Nat → Option PyJson) (hnd : (rows.map (·.rowId)).Nodup) (hbs : 0 < bs)
    (i : Nat) (k : Int)
    (hk : k ∈ (run_ai_scoring rows prior ckpt bs oracle).dispatched.getD i []) :
    ∃ jf, lookupId (run_ai_scoring rows prior ckpt bs oracle).finalMap k =
      some (pickResult (oracle i) jf) := by
  rw [run_eq] at hk ⊢
  by_cases hi : i < (chunks bs (pendingRows rows (dictUpdate prior ckpt))).length
  case neg =>
    exfalso
    rw [List.getD_eq_default _ _ (by simpa using Nat.le_of_not_lt hi)] at hk
    cases hk
  case pos =>
    rw [getD_map_ids _ i hi] at hk
    have hdisj := chunks_ids_disjoint bs hbs (pendingRows rows (dictUpdate prior ckpt))
      (pending_ids_nodup rows _ hnd)
    rcases lookup_batchAssign_mem (oracle i) k _ 0 hk with ⟨jf, hjf⟩
    refine ⟨jf, ?_⟩
    show lookupId ((batchMaps (chunks bs (pendingRows rows (dictUpdate prior ckpt)))
      oracle).foldl dictUpdate (dictUpdate prior ckpt)) k = _
    apply lookup_foldl_last _ k _ i _ (by rw [batchMaps_length]; exact hi)
    · rw [batchMaps_getD _ _ i hi]
      exact hjf
    · intro j hij hj
      rw [batchMaps_length] at hj
      rw [batchMaps_getD _ _ j hj]
      apply lookup_batchAssign_not_mem
      have hpair := List.pairwise_iff_getElem.mp hdisj i j (by simpa using hi)
        (by simpa using hj) hij
      rw [List.getElem_map] at hpair
      rw [List.getElem_map] at hpair
      rw [List.getD_eq_getElem _ [] hi] at hk
      rw [List.getD_eq_getElem _ [] hj]
      exact hpair hk

theorem call_ai_ok0 (f : Nat → CallOutcome) (v : PyJson) (h : f 0 = CallOutcome.ok v) :
    _call_ai f = (some v, [], 1) := by
  simp [_call_ai, callLoop, h]

theorem call_ai_err0 (f : Nat → CallOutcome) (m : String) (h : f 0 = CallOutcome.error m)
    (hrl : isRateLimitedMsg m = false) : _call_ai f = (none, [], 1) := by
  simp [_call_ai, callLoop, h, hrl]

theorem call_ai_rl0_ok1 (f : Nat → CallOutcome) (m : String) (v : PyJson)
    (h0 : f 0 = CallOutcome.error m) (hrl : isRateLimitedMsg m = true)
    (h1 : f 1 = CallOutcome.ok v) : _call_ai f = (some v, [5], 2) := by
  simp [_call_ai, callLoop, h0, hrl, h1]

theorem call_ai_rl0_err1 (f : Nat → CallOutcome) (m0 m1 : String)
    (h0 : f 0 = CallOutcome.error m0) (hrl0 : isRateLimitedMsg m0 = true)
    (h1 : f 1 = CallOutcome.error m1) (hrl1 : isRateLimitedMsg m1 = false) :
    _call_ai f = (none, [5], 2) := by
  simp [_call_ai, callLoop, h0, hrl0, h1, hrl1]

theorem call_ai_rl0_rl1_ok2 (f : Nat → CallOutcome) (m0 m1 : String) (v : PyJson)
    (h0 : f 0 = CallOutcome.error m0) (hrl0 : isRateLimitedMsg m0 = true)
    (h1 : f 1 = CallOutcome.error m1) (hrl1 : isRateLimitedMsg m1 = true)
    (h2 : f 2 = CallOutcome.ok v) : _call_ai f = (some v, [5, 10], 3) := by
  simp [_call_ai, callLoop, h0, hrl0, h1, hrl1, h2]

theorem call_ai_rl0_rl1_err2 (f : Nat → CallOutcome) (m0 m1 m2 : String)
    (h0 : f 0 = CallOutcome.error m0) (hrl0 : isRateLimitedMsg m0 = true)
    (h1 : f 1 = CallOutcome.error m1) (hrl1 : isRateLimitedMsg m1 = true)
    (h2 : f 2 = CallOutcome.error m2) : _call_ai f = (none, [5, 10], 3) := by
  simp [_call_ai, callLoop, h0, hrl0, h1, hrl1, h2]

theorem fileAfter_writes (cs : List Char) (acc : String) :
    fileAfter acc (cs.map FsOp.writeChar) = acc ++ String.mk cs := by
  induction cs generalizing acc with
  | nil =>
    show acc = acc ++ String.mk []
    rw [show String.mk [] = "" from rfl, String.append_empty]
  | cons c t ih =>
    show fileAfter (acc.push c) (t.map FsOp.writeChar) = acc ++ String.mk (c :: t)
    rw [ih]
    cases acc with
    | mk d =>
      show String.mk ((d ++ [c]) ++ t) = String.mk (d ++ (c :: t))
      rw [List.append_assoc]
      rfl

theorem pyIntKey_pyStrKey (k : Int) : pyIntKey (pyStrKey k) = k := by
  simp only [pyIntKey, pyStrKey, Nat.ofDigits_digits]
  by_cases h : k < 0
  · rw [if_pos (decide_eq_true h)]
    omega
  · rw [if_neg (by simp [h])]
    omega

theorem call_ai_cases (f : Nat → CallOutcome) :
    _call_ai f = (none, [], 1) ∨ _call_ai f = (none, [5], 2) ∨
    _call_ai f = (none, [5, 10], 3) ∨
    ∃ v, _call_ai f = (some v, [], 1) ∨ _call_ai f = (some v, [5], 2) ∨
      _call_ai f = (some v, [5, 10], 3) := by
  cases h0 : f 0 with
  | ok v => exact Or.inr (Or.inr (Or.inr ⟨v, Or.inl (call_ai_ok0 f v h0)⟩))
  | error m0 =>
    cases hrl0 : isRateLimitedMsg m0 with
    | false => exact Or.inl (call_ai_err0 f m0 h0 hrl0)
    | true =>
      cases h1 : f 1 with
      | ok v =>
        exact Or.inr (Or.inr (Or.inr ⟨v, Or.inr (Or.inl (call_ai_rl0_ok1 f m0 v h0 hrl0 h1))⟩))
      | error m1 =>
        cases hrl1 : isRateLimitedMsg m1 with
        | false => exact Or.inr (Or.inl (call_ai_rl0_err1 f m0 m1 h0 hrl0 h1 hrl1))
        | true =>
          cases h2 : f 2 with
          | ok v =>
            exact Or.inr (Or.inr (Or.inr
              ⟨v, Or.inr (Or.inr (call_ai_rl0_rl1_ok2 f m0 m1 v h0 hrl0 h1 hrl1 h2))⟩))
          | error m2 =>
            exact Or.inr (Or.inr (Or.inl (call_ai_rl0_rl1_err2 f m0 m1 m2 h0 hrl0 h1 hrl1 h2)))

theorem read_abstract_some (fs : String → AbstractFile) (l : String)
    (h : ¬(l = "" ∨ l = "Not_Found")) :
    _read_abstract fs (some l) =
      (match fs l with
        | .missing => "找不到摘要文件。"
        | .corrupt => "摘要文件损坏。"
        | .parsed none => "摘要内容为空。"
        | .parsed (some s) => s) := by
  unfold _read_abstract
  show (if l = "" ∨ l = "Not_Found" then "无摘要数据。"
    else match fs l with
      | .missing => "找不到摘要文件。"
      | .corrupt => "摘要文件损坏。"
      | .parsed none => "摘要内容为空。"
      | .parsed (some s) => s) = _
  rw [if_neg h]

/-!  ## Claim theorems  -/

/-- C2, as stated, is false on the code: `_save_checkpoint` opens the target
path with mode `"w"` (truncating it in place) and then writes the serialized
map directly — there is no temporary file and no rename — so a crash right
after the truncation leaves an empty file, which is neither the previous
complete map nor the new complete map. -/
theorem c2_counterexample :
    ¬ atomicSave (serializeCkpt [(0, ⟨1, "r"⟩)])
      (serializeCkpt [(0, ⟨1, "r"⟩), (1, ⟨2, "s"⟩)]) := by
  intro h
  rcases h 1 with hc | hc
  · exact absurd hc (by decide)
  · exact absurd hc (by decide)

/-- C2 amended: a completed `_save_checkpoint` leaves exactly the new
serialized map on disk, but the save is not atomic: a crash during the call
leaves either the old content (crash before the truncating open) or some
prefix of the new serialized content (possibly empty, possibly proper) —
a half-written file is possible. -/
theorem c2_save_behavior (old : String) (m : CkptMap) :
    fileAfter old (saveCheckpointOps (serializeCkpt m)) = serializeCkpt m ∧
    (∀ n : Nat, crashResult old (serializeCkpt m) n = old ∨
      ∃ j, (crashResult old (serializeCkpt m) n).data = (serializeCkpt m).data.take j) := by
  constructor
  · show fileAfter "" ((serializeCkpt m).data.map FsOp.writeChar) = serializeCkpt m
    rw [fileAfter_writes]
    rfl
  · intro n
    cases n with
    | zero => exact Or.inl rfl
    | succ j =>
      refine Or.inr ⟨j, ?_⟩
      show (fileAfter old ((FsOp.truncate ::
        (serializeCkpt m).data.map FsOp.writeChar).take (j + 1))).data = _
      rw [List.take_succ_cons]
      have hmt : ((serializeCkpt m).data.map FsOp.writeChar).take j =
          ((serializeCkpt m).data.take j).map FsOp.writeChar := by
        rw [List.map_take]
      rw [hmt]
      show (fileAfter "" (((serializeCkpt m).data.take j).map FsOp.writeChar)).data = _
      rw [fileAfter_writes]
      rfl

/-- C2 amended, evaluated: crashing one operation into the example save
leaves the empty file, a (proper) prefix of the new content. -/
theorem c2_save_behavior_witness :
    fileAfter (serializeCkpt [(0, ⟨1, "r"⟩)])
      (saveCheckpointOps (serializeCkpt [(0, ⟨1, "r"⟩), (1, ⟨2, "s"⟩)])) =
      serializeCkpt [(0, ⟨1, "r"⟩), (1, ⟨2, "s"⟩)] ∧
    (crashResult (serializeCkpt [(0, ⟨1, "r"⟩)])
        (serializeCkpt [(0, ⟨1, "r"⟩), (1, ⟨2, "s"⟩)]) 1 = serializeCkpt [(0, ⟨1, "r"⟩)] ∨
      ∃ j, (crashResult (serializeCkpt [(0, ⟨1, "r"⟩)])
        (serializeCkpt [(0, ⟨1, "r"⟩), (1, ⟨2, "s"⟩)]) 1).data =
          (serializeCkpt [(0, ⟨1, "r"⟩), (1, ⟨2, "s"⟩)]).data.take j) :=
  ⟨(c2_save_behavior (serializeCkpt [(0, ⟨1, "r"⟩)]) [(0, ⟨1, "r"⟩), (1, ⟨2, "s"⟩)]).1,
   (c2_save_behavior (serializeCkpt [(0, ⟨1, "r"⟩)]) [(0, ⟨1, "r"⟩), (1, ⟨2, "s"⟩)]).2 1⟩

/-- C4: the retry wrapper `_call_ai` makes at most 3 attempts; the sleeps it
performs are `5 * k` before the `k`-th retry (5 then 10); a non-rate-limited
failure on an attempt stops retrying at once; and a success on attempt 3
after two rate-limited failures returns the parsed result `(some v)` with
sleeps `[5, 10]`, not a default. -/
theorem c4_retry_backoff (f : Nat → CallOutcome) :
    ((_call_ai f).2.2 ≤ 3) ∧
    ((_call_ai f).2.1 =
      (List.range (_call_ai f).2.1.length).map (fun j => 5 * (j + 1))) ∧
    (∀ m, f 0 = CallOutcome.error m → isRateLimitedMsg m = false →
      _call_ai f = (none, [], 1)) ∧
    (∀ m0 m1, f 0 = CallOutcome.error m0 → isRateLimitedMsg m0 = true →
      f 1 = CallOutcome.error m1 → isRateLimitedMsg m1 = false →
      _call_ai f = (none, [5], 2)) ∧
    (∀ v m0 m1, f 0 = CallOutcome.error m0 → isRateLimitedMsg m0 = true →
      f 1 = CallOutcome.error m1 → isRateLimitedMsg m1 = true →
      f 2 = CallOutcome.ok v → _call_ai f = (some v, [5, 10], 3)) := by
  refine ⟨?_, ?_, ?_, ?_, ?_⟩
  · rcases call_ai_cases f with h | h | h | ⟨v, h | h | h⟩ <;> rw [h] <;> simp
  · rcases call_ai_cases f with h | h | h | ⟨v, h | h | h⟩ <;> rw [h] <;> rfl
  · exact fun m h hrl => call_ai_err0 f m h hrl
  · exact fun m0 m1 h0 hrl0 h1 hrl1 => call_ai_rl0_err1 f m0 m1 h0 hrl0 h1 hrl1
  · exact fun v m0 m1 h0 hrl0 h1 hrl1 h2 => call_ai_rl0_rl1_ok2 f m0 m1 v h0 hrl0 h1 hrl1 h2

/-- C4, evaluated: two rate-limited attempts, then a success, on concrete
messages: the waits are 5 then 10 and the parsed result is returned. -/
theorem c4_witness :
    exAttempts 0 = CallOutcome.error "HTTP 429 Too Many Requests" ∧
    isRateLimitedMsg "HTTP 429 Too Many Requests" = true ∧
    isRateLimitedMsg "Rate Limit exceeded" = true ∧
    _call_ai exAttempts = (some (PyJson.arr [⟨none, some 3, some "fine"⟩]), [5, 10], 3) :=
  ⟨rfl, by decide, by decide,
    (c4_retry_backoff exAttempts).2.2.2.2 (PyJson.arr [⟨none, some 3, some "fine"⟩])
      "HTTP 429 Too Many Requests" "Rate Limit exceeded"
      rfl (by decide) rfl (by decide) rfl⟩

/-- C6: for every item sequence and `batch_size > 0`, the slicing loop of
`run_ai_scoring` partitions the sequence exactly: concatenating the batches
in order gives back the sequence (so order is preserved and every item lands
in exactly one batch position), every batch is non-empty with at most
`batch_size` items, and every batch but the last has exactly `batch_size`. -/
theorem c6_batch_partition {α : Type} (bs : Nat) (l : List α) (hbs : 0 < bs) :
    (chunks bs l).flatten = l ∧
    (∀ c ∈ chunks bs l, c.length ≤ bs ∧ c ≠ []) ∧
    (∀ i : Nat, i + 1 < (chunks bs l).length → ((chunks bs l).getD i []).length = bs) :=
  ⟨chunks_flatten bs hbs l, chunks_mem bs hbs l, chunks_getD_len bs hbs l⟩

/-- C6, evaluated: 12 pending items with `batch_size = 5` give exactly 3
batches of sizes `[5, 5, 2]` covering all 12 ids exactly once. -/
theorem c6_witness :
    0 < 5 ∧ (chunks 5 (List.range 12)).flatten = List.range 12 ∧
    (chunks 5 (List.range 12)).map List.length = [5, 5, 2] ∧
    (chunks 5 (List.range 12)).length = 3 :=
  ⟨by decide, (c6_batch_partition 5 (List.range 12) (by decide)).1, by decide, by decide⟩

/-- C9, as stated, is false on the code: the universal clause "the per-item
payload text is never the empty string" fails when the abstract file parses
and its `"abstract"` field holds the empty string — `data.get("abstract",
default)` returns that empty string verbatim. -/
theorem c9_counterexample :
    ¬ (∀ (fs : String → AbstractFile) (link : Option String),
        _read_abstract fs link ≠ "") := by
  intro h
  exact h (fun _ => AbstractFile.parsed (some "")) (some "x.json") rfl

/-- C9 amended: in every unavailable case (missing/NaN link, `"Not_Found"`
link, missing file, unreadable or corrupt file, or parsed file without an
`"abstract"` key) `_read_abstract` substitutes a fixed non-empty placeholder;
when the file parses and carries an abstract value, that value is passed
through verbatim — so the payload text is empty exactly when the stored
abstract field is itself the empty string. -/
theorem c9_placeholder_nonempty (fs : String → AbstractFile) (link : Option String) :
    ((link = none ∨ link = some "" ∨ link = some "Not_Found") →
      _read_abstract fs link = "无摘要数据。" ∧ _read_abstract fs link ≠ "") ∧
    (∀ l, link = some l → l ≠ "" → l ≠ "Not_Found" →
      (fs l = AbstractFile.missing → _read_abstract fs link = "找不到摘要文件。") ∧
      (fs l = AbstractFile.corrupt → _read_abstract fs link = "摘要文件损坏。") ∧
      (fs l = AbstractFile.parsed none → _read_abstract fs link = "摘要内容为空。") ∧
      (∀ s, fs l = AbstractFile.parsed (some s) → _read_abstract fs link = s) ∧
      (fs l ≠ AbstractFile.parsed (some "") → _read_abstract fs link ≠ "")) := by
  constructor
  · intro hl
    rcases hl with rfl | rfl | rfl
    · have he : _read_abstract fs none = "无摘要数据。" := rfl
      exact ⟨he, by rw [he]; decide⟩
    · have he : _read_abstract fs (some "") = "无摘要数据。" := rfl
      exact ⟨he, by rw [he]; decide⟩
    · have he : _read_abstract fs (some "Not_Found") = "无摘要数据。" := rfl
      exact ⟨he, by rw [he]; decide⟩
  · intro l hlink hne hnf
    subst hlink
    have hcond : ¬(l = "" ∨ l = "Not_Found") := by tauto
    rw [read_abstract_some fs l hcond]
    refine ⟨?_, ?_, ?_, ?_, ?_⟩
    · intro h; rw [h]
    · intro h; rw [h]
    · intro h; rw [h]
    · intro s h; rw [h]
    · intro hne2
      cases hfs : fs l with
      | missing => decide
      | corrupt => decide
      | parsed o =>
        cases o with
        | none => decide
        | some s =>
          show s ≠ ""
          intro hs
          exact hne2 (by rw [hfs, hs])

/-- C9 amended, evaluated: a missing file gives the non-empty placeholder,
and a parsed abstract is passed through verbatim. -/
theorem c9_witness :
    _read_abstract (fun _ => AbstractFile.missing) (some "a.json") = "找不到摘要文件。" ∧
    _read_abstract (fun _ => AbstractFile.parsed (some "An abstract.")) (some "a.json") =
      "An abstract." :=
  ⟨((c9_placeholder_nonempty (fun _ => AbstractFile.missing) (some "a.json")).2
      "a.json" rfl (by decide) (by decide)).1 rfl,
   (((c9_placeholder_nonempty (fun _ => AbstractFile.parsed (some "An abstract."))
      (some "a.json")).2 "a.json" rfl (by decide) (by decide)).2.2.2.1 "An abstract." rfl)⟩

/-- C10: `_save_checkpoint` serializes every integer key to its decimal
string and `_load_checkpoint` converts it back with `int(...)`; loading what
was saved returns a map equal to the original, every binding surviving the
round trip. -/
theorem c10_checkpoint_roundtrip (m : CkptMap) :
    _load_checkpoint_keys (_save_checkpoint_keys m) = m := by
  unfold _load_checkpoint_keys _save_checkpoint_keys
  rw [List.map_map]
  have h : ∀ p ∈ m,
      ((fun p => (pyIntKey p.1, p.2)) ∘ (fun p => (pyStrKey p.1, p.2))) p = id p := by
    intro p _
    show (pyIntKey (pyStrKey p.1), p.2) = p
    rw [pyIntKey_pyStrKey]
  rw [List.map_congr_left h, List.map_id]

theorem batchAssign_getD (resp : Option PyJson) :
    ∀ (ids : List Int) (j0 j : Nat), j < ids.length →
    (batchAssign resp j0 ids).getD j (0, defaultResult) =
      (ids.getD j 0, pickResult resp (j0 + j)) := by
  intro ids
  induction ids with
  | nil => intro j0 j hj; simp at hj
  | cons rid t ih =>
    intro j0 j hj
    cases j with
    | zero => simp [batchAssign, List.getD_cons_zero]
    | succ j =>
      show ((rid, pickResult resp j0) :: batchAssign resp (j0 + 1) t).getD (j + 1) _ = _
      rw [List.getD_cons_succ, List.getD_cons_succ,
        ih (j0 + 1) j (by simpa using hj),
        show j0 + 1 + j = j0 + (j + 1) from by omega]

theorem pickResult_erase_id (resp : List RespItem) (j : Nat) :
    pickResult (some (PyJson.arr (resp.map (fun e => ⟨none, e.score, e.reason⟩)))) j =
      pickResult (some (PyJson.arr resp)) j := by
  show (match (resp.map (fun e => (⟨none, e.score, e.reason⟩ : RespItem))).get? j with
      | some e => (⟨e.score.getD 0, e.reason.getD "无理由"⟩ : ScoreResult)
      | none => defaultResult) =
    (match resp.get? j with
      | some e => (⟨e.score.getD 0, e.reason.getD "无理由"⟩ : ScoreResult)
      | none => defaultResult)
  rw [List.get?_map]
  cases resp.get? j <;> rfl

theorem batchAssign_congr (r1 r2 : Option PyJson)
    (h : ∀ j, pickResult r1 j = pickResult r2 j) :
    ∀ (ids : List Int) (j0 : Nat), batchAssign r1 j0 ids = batchAssign r2 j0 ids := by
  intro ids
  induction ids with
  | nil => intro j0; rfl
  | cons rid t ih => intro j0; simp [batchAssign, h j0, ih (j0 + 1)]

theorem run_output_eq (rows : List Row) (prior ckpt : CkptMap) (bs : Nat)
    (oracle : Nat → Option PyJson) :
    (run_ai_scoring rows prior ckpt bs oracle).output =
      sortByScoreDesc (finalizeRows rows
        (run_ai_scoring rows prior ckpt bs oracle).finalMap) := by
  rw [run_eq]

theorem finalize_sort_length (rows : List Row) (m : CkptMap) :
    (sortByScoreDesc (finalizeRows rows m)).length = rows.length := by
  unfold sortByScoreDesc finalizeRows
  rw [List.length_mergeSort, List.length_map]

theorem finalize_sort_mem (rows : List Row) (m : CkptMap) (r : Row) (hr : r ∈ rows) :
    (⟨r, ((lookupId m r.rowId).map (·.score)).getD 0,
      ((lookupId m r.rowId).map (·.reason)).getD "处理遗漏"⟩ : OutRow) ∈
      sortByScoreDesc (finalizeRows rows m) := by
  unfold sortByScoreDesc
  apply (List.mergeSort_perm _ _).mem_iff.mpr
  unfold finalizeRows
  exact List.mem_map_of_mem _ hr

/-- C1: the engine dispatches exactly the rows whose `RowId` is not resolved
by the union of the prior output and the checkpoint (in original order, each
exactly once); in that union the checkpoint entry wins for any id present in
both; and when nothing is pending, the engine dispatches zero batches and
writes the final sorted table built from the union at once. -/
theorem c1_pending_set (rows : List Row) (prior ckpt : CkptMap) (bs : Nat)
    (oracle : Nat → Option PyJson) (hbs : 0 < bs) :
    ((run_ai_scoring rows prior ckpt bs oracle).dispatched).flatten =
      (rows.filter (fun r => (lookupId (dictUpdate prior ckpt) r.rowId).isNone)).map
        (·.rowId) ∧
    (∀ k, lookupId (dictUpdate prior ckpt) k = (lookupId ckpt k).or (lookupId prior k)) ∧
    (pendingRows rows (dictUpdate prior ckpt) = [] →
      (run_ai_scoring rows prior ckpt bs oracle).dispatched = [] ∧
      (run_ai_scoring rows prior ckpt bs oracle).output =
        sortByScoreDesc (finalizeRows rows (dictUpdate prior ckpt))) := by
  refine ⟨?_, fun k => lookup_dictUpdate prior ckpt k, ?_⟩
  · rw [run_eq]
    show ((chunks bs (pendingRows rows (dictUpdate prior ckpt))).map
      (fun c => c.map (·.rowId))).flatten = _
    rw [← List.map_flatten, chunks_flatten bs hbs]
    rfl
  · intro hp
    rw [run_eq]
    constructor
    · show ((chunks bs (pendingRows rows (dictUpdate prior ckpt))).map
        (fun c => c.map (·.rowId))) = []
      rw [hp, chunks_nil]
      rfl
    · show sortByScoreDesc (finalizeRows rows
        ((batchMaps (chunks bs (pendingRows rows (dictUpdate prior ckpt))) oracle).foldl
          dictUpdate (dictUpdate prior ckpt))) = _
      rw [hp, chunks_nil, batchMaps_nil]
      rfl

/-- C1, evaluated: with both rows already resolved (row 1 by both the prior
output and the more recent checkpoint), nothing is dispatched, the output is
written at once, and the checkpoint value wins for row 1. -/
theorem c1_witness :
    0 < 5 ∧
    pendingRows exRows (dictUpdate exPrior exCkpt) = [] ∧
    (run_ai_scoring exRows exPrior exCkpt 5 exOracleNone).dispatched = [] ∧
    (run_ai_scoring exRows exPrior exCkpt 5 exOracleNone).output =
      sortByScoreDesc (finalizeRows exRows (dictUpdate exPrior exCkpt)) ∧
    lookupId (dictUpdate exPrior exCkpt) 1 = some ⟨5, "c"⟩ := by
  have h := c1_pending_set exRows exPrior exCkpt 5 exOracleNone (by decide)
  have hp : pendingRows exRows (dictUpdate exPrior exCkpt) = [] := by decide
  exact ⟨by decide, hp, (h.2.2 hp).1, (h.2.2 hp).2, (h.2.1 1).trans (by decide)⟩

/-- C3: the result recorded for the `j`-th item of a batch is computed from
the `j`-th element of the parsed response array: its `score` (default 0) and
`reason` (default `"无理由"`), with any `id` field the elements carry having
no influence; and every position beyond the response length receives the
default result, score 0 with the fixed insufficient-results sentinel. -/
theorem c3_positional_alignment (resp : List RespItem) (rowIds : List Int) (j : Nat)
    (hj : j < rowIds.length) :
    ((batchAssign (some (PyJson.arr resp)) 0 rowIds).getD j (0, defaultResult) =
      (rowIds.getD j 0, pickResult (some (PyJson.arr resp)) j)) ∧
    (∀ e, resp.get? j = some e →
      pickResult (some (PyJson.arr resp)) j = ⟨e.score.getD 0, e.reason.getD "无理由"⟩) ∧
    (resp.length ≤ j →
      pickResult (some (PyJson.arr resp)) j = ⟨0, "AI返回不足或失败"⟩) ∧
    (batchAssign (some (PyJson.arr (resp.map (fun e => ⟨none, e.score, e.reason⟩)))) 0
        rowIds =
      batchAssign (some (PyJson.arr resp)) 0 rowIds) := by
  refine ⟨?_, ?_, ?_, ?_⟩
  · simpa using batchAssign_getD (some (PyJson.arr resp)) rowIds 0 j hj
  · intro e he
    show (match resp.get? j with
        | some e => (⟨e.score.getD 0, e.reason.getD "无理由"⟩ : ScoreResult)
        | none => defaultResult) = _
    rw [he]
  · intro hlen
    show (match resp.get? j with
        | some e => (⟨e.score.getD 0, e.reason.getD "无理由"⟩ : ScoreResult)
        | none => defaultResult) = _
    rw [List.get?_eq_none.mpr hlen]
    rfl
  · exact batchAssign_congr _ _ (pickResult_erase_id resp) rowIds 0

/-- C3, evaluated: a two-element response against a three-item batch fills
positions 0 and 1 positionally and position 2 with the default. -/
theorem c3_witness :
    1 < 3 ∧ 2 < 3 ∧
    (batchAssign (some (PyJson.arr
        [⟨some 99, some 4, some "x"⟩, ⟨some 98, some 2, some "y"⟩])) 0
        [10, 11, 12]).getD 1 (0, defaultResult) = (11, ⟨2, "y"⟩) ∧
    (batchAssign (some (PyJson.arr
        [⟨some 99, some 4, some "x"⟩, ⟨some 98, some 2, some "y"⟩])) 0
        [10, 11, 12]).getD 2 (0, defaultResult) = (12, ⟨0, "AI返回不足或失败"⟩) := by
  have h1 := (c3_positional_alignment
    [⟨some 99, some 4, some "x"⟩, ⟨some 98, some 2, some "y"⟩] [10, 11, 12] 1
    (by decide)).1
  have h2 := (c3_positional_alignment
    [⟨some 99, some 4, some "x"⟩, ⟨some 98, some 2, some "y"⟩] [10, 11, 12] 2
    (by decide)).1
  exact ⟨by decide, by decide, h1.trans (by decide), h2.trans (by decide)⟩

/-- C5: a non-rate-limited failure, or three failed attempts, make `_call_ai`
return `none` (a value, not an exception); every item of a batch whose call
returned nothing is recorded with the default result (score 0, explanatory
sentinel); and every dispatched item of every batch ends up recorded, so the
run continues past a failed batch. -/
theorem c5_failure_degrades (rows : List Row) (prior ckpt : CkptMap) (bs : Nat)
    (oracle : Nat → Option PyJson) (hnd : (rows.map (·.rowId)).Nodup) (hbs : 0 < bs)
    (i : Nat) (hfail : oracle i = none) :
    (∀ f m, f 0 = CallOutcome.error m → isRateLimitedMsg m = false →
      (_call_ai f).1 = none) ∧
    (∀ f m0 m1 m2, f 0 = CallOutcome.error m0 → f 1 = CallOutcome.error m1 →
      f 2 = CallOutcome.error m2 → (_call_ai f).1 = none) ∧
    (∀ k, k ∈ (run_ai_scoring rows prior ckpt bs oracle).dispatched.getD i [] →
      lookupId (run_ai_scoring rows prior ckpt bs oracle).finalMap k =
        some defaultResult) ∧
    (∀ j k, k ∈ (run_ai_scoring rows prior ckpt bs oracle).dispatched.getD j [] →
      (lookupId (run_ai_scoring rows prior ckpt bs oracle).finalMap k).isSome = true) := by
  refine ⟨?_, ?_, ?_, ?_⟩
  · intro f m h hrl
    rw [call_ai_err0 f m h hrl]
  · intro f m0 m1 m2 h0 h1 h2
    cases hrl0 : isRateLimitedMsg m0 with
    | false => rw [call_ai_err0 f m0 h0 hrl0]
    | true =>
      cases hrl1 : isRateLimitedMsg m1 with
      | false => rw [call_ai_rl0_err1 f m0 m1 h0 hrl0 h1 hrl1]
      | true => rw [call_ai_rl0_rl1_err2 f m0 m1 m2 h0 hrl0 h1 hrl1 h2]
  · intro k hk
    rcases run_finalMap_lookup rows prior ckpt bs oracle hnd hbs i k hk with ⟨jf, hjf⟩
    rw [hjf, hfail]
    rfl
  · intro j k hk
    rcases run_finalMap_lookup rows prior ckpt bs oracle hnd hbs j k hk with ⟨jf, hjf⟩
    rw [hjf]
    rfl

/-- C5, evaluated: with batch size 2 over three unresolved rows, batch 0
fails and its items 0 and 1 get the default entry, while batch 1 still runs
and records item 2. -/
theorem c5_witness :
    (exRows3.map (·.rowId)).Nodup ∧ 0 < 2 ∧ exOracle1 0 = none ∧
    lookupId (run_ai_scoring exRows3 [] [] 2 exOracle1).finalMap 0 =
      some defaultResult ∧
    lookupId (run_ai_scoring exRows3 [] [] 2 exOracle1).finalMap 1 =
      some defaultResult ∧
    (lookupId (run_ai_scoring exRows3 [] [] 2 exOracle1).finalMap 2).isSome = true := by
  have h := c5_failure_degrades exRows3 [] [] 2 exOracle1 (by decide) (by decide) 0 rfl
  exact ⟨by decide, by decide, rfl, h.2.2.1 0 (by decide), h.2.2.1 1 (by decide),
    h.2.2.2 1 2 (by decide)⟩

/-- C7: the final table always has exactly one row per input row, whatever
the batch outcomes; every input row appears with the score/reason looked up
in the final map; and a row whose id is absent from the final map appears
with score 0 and the sentinel reason, never as a missing row. -/
theorem c7_completeness (rows : List Row) (prior ckpt : CkptMap) (bs : Nat)
    (oracle : Nat → Option PyJson) :
    (run_ai_scoring rows prior ckpt bs oracle).output.length = rows.length ∧
    (∀ r ∈ rows,
      (⟨r, ((lookupId (run_ai_scoring rows prior ckpt bs oracle).finalMap r.rowId).map
          (·.score)).getD 0,
        ((lookupId (run_ai_scoring rows prior ckpt bs oracle).finalMap r.rowId).map
          (·.reason)).getD "处理遗漏"⟩ : OutRow) ∈
        (run_ai_scoring rows prior ckpt bs oracle).output) ∧
    (∀ r ∈ rows,
      lookupId (run_ai_scoring rows prior ckpt bs oracle).finalMap r.rowId = none →
      (⟨r, 0, "处理遗漏"⟩ : OutRow) ∈ (run_ai_scoring rows prior ckpt bs oracle).output) := by
  refine ⟨?_, ?_, ?_⟩
  · rw [run_output_eq]
    exact finalize_sort_length rows _
  · intro r hr
    rw [run_output_eq]
    exact finalize_sort_mem rows _ r hr
  · intro r hr hnone
    rw [run_output_eq]
    have heq : (⟨r, 0, "处理遗漏"⟩ : OutRow) =
        ⟨r, ((lookupId (run_ai_scoring rows prior ckpt bs oracle).finalMap r.rowId).map
            (·.score)).getD 0,
          ((lookupId (run_ai_scoring rows prior ckpt bs oracle).finalMap r.rowId).map
            (·.reason)).getD "处理遗漏"⟩ := by
      rw [hnone]
      rfl
    rw [heq]
    exact finalize_sort_mem rows _ r hr

/-- C7, evaluated: with a failed batch 0 and a one-element answer for
batch 1, the output still has all three rows, and the failed row 0 appears
with the default entry rather than being dropped. -/
theorem c7_witness :
    (run_ai_scoring exRows3 [] [] 2 exOracle1).output.length = exRows3.length ∧
    (⟨⟨0, "a", none⟩, 0, "AI返回不足或失败"⟩ : OutRow) ∈
      (run_ai_scoring exRows3 [] [] 2 exOracle1).output := by
  have h := c7_completeness exRows3 [] [] 2 exOracle1
  refine ⟨h.1, ?_⟩
  have h2 := h.2.1 ⟨0, "a", none⟩ (by decide)
  convert h2 using 2

end GetPappers
